import Mathlib

/-!
Shallow embedding of `extractor.py` (money_master repository).

Python dictionaries (`dict` / `OrderedDict` / `defaultdict` / `Counter`) are
modelled as association lists in insertion order; `d[k] = v` updates the first
matching key in place or appends a new pair at the end, exactly as a Python
dict preserves insertion order.  Python cell values are modelled by `Val`;
`None` is `Val.null`, a `datetime`/`date` cell is `Val.date`, and the empty
dict literal `{}` (which the source uses as a field default) is
`Val.emptyDict`.  Fallible code (Python exceptions: `KeyError`, failed
`assert`, `IndexError`) is modelled with `Except` / explicit failure values.
-/

/-- A Python scalar cell value as it occurs in this program. -/
inductive Val where
  | null
  | str (s : String)
  | int (n : Int)
  | bool (b : Bool)
  | date (y m d : Nat)
  | emptyDict
deriving DecidableEq

/-- Python truthiness (`if x:`) for the values of this program:
`None`, `""`, `0`, `False` and `{}` are falsy. -/
def Val.isTruthy : Val → Bool
  | .null => false
  | .str s => !s.isEmpty
  | .int n => n != 0
  | .bool b => b
  | .date _ _ _ => true
  | .emptyDict => false

/-- First value stored under key `k` in an association list (Python `dict`
lookup by key; Python dicts cannot hold duplicate keys, so "first" agrees). -/
def alFind {κ α : Type} [DecidableEq κ] : List (κ × α) → κ → Option α
  | [], _ => none
  | p :: rest, k => if p.1 = k then some p.2 else alFind rest k

/-- Whether the key is present (Python `k in d`). -/
def alHasKey {κ α : Type} [DecidableEq κ] : List (κ × α) → κ → Bool
  | [], _ => false
  | p :: rest, k => p.1 = k || alHasKey rest k

/-- Replace the value stored under an existing key, keeping its position. -/
def alSet {κ α : Type} [DecidableEq κ] : List (κ × α) → κ → α → List (κ × α)
  | [], _, _ => []
  | p :: rest, k, v => if p.1 = k then (k, v) :: rest else p :: alSet rest k v

/-- Python `d[k] = v`: update in place if the key exists, else append. -/
def alInsert {κ α : Type} [DecidableEq κ] (m : List (κ × α)) (k : κ) (v : α) :
    List (κ × α) :=
  if alHasKey m k then alSet m k v else m ++ [(k, v)]

/-- A ledger / merged transaction row: a Python (ordered) dict from field
name to cell value. -/
abbrev Dict := List (String × Val)

/-- Python `row.get(k)`: the stored value, or `None` when the key is absent. -/
def dictGet (d : Dict) (k : String) : Val :=
  (alFind d k).getD Val.null

/-- `len(d.keys())`: number of distinct keys. -/
def dictKeyCount (d : Dict) : Nat :=
  ((d.map Prod.fst).eraseDups).length

/-- Python `d.update(other)`: insert every pair of `other`, in order. -/
def dictUpdateAll (d other : Dict) : Dict :=
  other.foldl (fun acc p => alInsert acc p.1 p.2) d

/-- The `location` sub-object of a fetched Plaid transaction; `none` fields
model absent keys. -/
structure PlaidLocation where
  address : Option Val
  city : Option Val
  state : Option Val
  zip : Option Val
  country : Option Val
deriving DecidableEq

/-- A fetched Plaid transaction object; `none` fields model absent keys, so
`transaction.get(k)` is `Option.getD _ Val.null`. -/
structure PlaidTransaction where
  transaction_id : Option Val
  account_id : Option Val
  date : Option Val
  name : Option Val
  amount : Option Val
  category : Option (List String)
  transaction_type : Option Val
  location : Option PlaidLocation
  pending : Option Val
deriving DecidableEq

/-- A Plaid account object from the fetch response. -/
structure PlaidAccount where
  account_id : Option Val
  mask : Option Val
  type : Option Val
  subtype : Option Val
deriving DecidableEq

/-- `account_data`: Python dict keyed by the account-id value. -/
abbrev VMap := List (Val × Dict)

/-- `CONFIG["BANK_NAME_MAPPING"].get(mask)`: static mask→name lookup,
`None` when unmapped. -/
def cfgGet (m : List (Val × Val)) (k : Val) : Val :=
  (alFind m k).getD Val.null

/-- The five-field account metadata entry built for one account inside
`build_account_details` (source lines 71-76), keys inserted in source order. -/
def accountEntry (bank_name_mapping : List (Val × Val)) (a : PlaidAccount) : Dict :=
  alInsert (alInsert (alInsert (alInsert (alInsert []
    "bank_account_number" (a.mask.getD Val.null))
    "account_name" (cfgGet bank_name_mapping (a.mask.getD Val.null)))
    "institution_type" (a.type.getD Val.null))
    "account_type" (a.type.getD Val.null))
    "account_subtype" (a.subtype.getD Val.null)

/-- Loop of `build_account_details`: `account_dict[account_id] = {...}` for
each account in response order. -/
def build_account_details_go (bank_name_mapping : List (Val × Val)) (acc : VMap) :
    List PlaidAccount → VMap
  | [] => acc
  | a :: rest =>
      build_account_details_go bank_name_mapping
        (alInsert acc (a.account_id.getD Val.null) (accountEntry bank_name_mapping a)) rest

/-- `build_account_details` (source lines 66-78). -/
def build_account_details (bank_name_mapping : List (Val × Val))
    (account_response : List PlaidAccount) : VMap :=
  build_account_details_go bank_name_mapping [] account_response

/-- `{row.get('transaction_id') for row in existing_transactions}`
(source line 82), kept as a list used for membership only. -/
def ledgerIds (existing_transactions : List Dict) : List Val :=
  existing_transactions.map (fun r => dictGet r "transaction_id")

/-- `(', ').join(transaction.get('category') or [])` (source line 97). -/
def joinCategories (t : PlaidTransaction) : String :=
  String.intercalate ", " (t.category.getD [])

/-- `transaction.get('location', {}).get(field, dflt)` (source lines 99-103):
when the location object or the field is absent the default is used. -/
def locField (t : PlaidTransaction) (f : PlaidLocation → Option Val) (dflt : Val) : Val :=
  match t.location with
  | some l => (f l).getD dflt
  | none => dflt

/-- The field assignments of source lines 94-105, applied after the account
metadata was copied into `transaction_dict`.  Note line 99 defaults the
`address` field to the empty dict `{}`, unlike its four siblings. -/
def buildRowRest (base : Dict) (t : PlaidTransaction) : Dict :=
  alInsert (alInsert (alInsert (alInsert (alInsert (alInsert (alInsert (alInsert
  (alInsert (alInsert (alInsert (alInsert base
    "date" (t.date.getD Val.null))
    "description" (t.name.getD Val.null))
    "amount" (t.amount.getD Val.null))
    "plaid_category" (Val.str (joinCategories t)))
    "transaction_type" (t.transaction_type.getD Val.null))
    "address" (locField t PlaidLocation.address Val.emptyDict))
    "city" (locField t PlaidLocation.city Val.null))
    "state" (locField t PlaidLocation.state Val.null))
    "zip" (locField t PlaidLocation.zip Val.null))
    "country" (locField t PlaidLocation.country Val.null))
    "pending" (t.pending.getD Val.null))
    "transaction_id" (t.transaction_id.getD Val.null)

/-- One iteration of the `for transaction in new_transactions` loop of
`merge_transactions` (source lines 85-107).  `ok none` means the transaction
was skipped, `ok (some d)` that row `d` is appended, `error aid` the
`KeyError` raised by `account_data[transaction.get('account_id')]` — the
exception payload is the missing key, i.e. the account id. -/
def merge_step (ids : List Val) (account_data : VMap) (t : PlaidTransaction) :
    Except Val (Option Dict) :=
  if t.transaction_id.getD Val.null ∈ ids then Except.ok none
  else
    match alFind account_data (t.account_id.getD Val.null) with
    | none => Except.error (t.account_id.getD Val.null)
    | some entry =>
        let base := dictUpdateAll [] entry
        if dictGet base "bank_account_number" = Val.str "7550" then Except.ok none
        else Except.ok (some (buildRowRest base t))

/-- The loop of `merge_transactions` over the fetched transactions,
collecting appended rows in fetch order. -/
def merge_new (ids : List Val) (account_data : VMap) :
    List PlaidTransaction → Except Val (List Dict)
  | [] => Except.ok []
  | t :: ts =>
      match merge_step ids account_data t with
      | Except.error e => Except.error e
      | Except.ok none => merge_new ids account_data ts
      | Except.ok (some d) =>
          match merge_new ids account_data ts with
          | Except.error e => Except.error e
          | Except.ok rest => Except.ok (d :: rest)

/-- `merge_transactions` (source lines 81-109): existing rows first,
then the accepted new rows. -/
def merge_transactions (existing_transactions : List Dict)
    (new_transactions : List PlaidTransaction) (account_data : VMap) :
    Except Val (List Dict) :=
  match merge_new (ledgerIds existing_transactions) account_data new_transactions with
  | Except.error e => Except.error e
  | Except.ok appended => Except.ok (existing_transactions ++ appended)

/-- A `Counter`: category value → count, in first-insertion order. -/
abbrev PyCounter := List (Val × Nat)

/-- `counter[k] += 1`: increment in place, or append the key with count 1. -/
def alBump : PyCounter → Val → PyCounter
  | [], k => [(k, 1)]
  | p :: rest, k => if p.1 = k then (p.1, p.2 + 1) :: rest else p :: alBump rest k

/-- The category frequency model: description value → `Counter`,
in first-insertion order (a `defaultdict(Counter)`). -/
abbrev CatModel := List (Val × PyCounter)

/-- `category_dict[description][category] += 1` on a `defaultdict(Counter)`. -/
def modelBump : CatModel → Val → Val → CatModel
  | [], desc, cat => [(desc, alBump [] cat)]
  | p :: rest, desc, cat =>
      if p.1 = desc then (p.1, alBump p.2 cat) :: rest
      else p :: modelBump rest desc cat

/-- Loop of `group_transactions_by_category` (source lines 41-43).
`transaction['category']` and `transaction['description']` are direct
subscripts: a missing key raises `KeyError`, modelled as `error key`. -/
def group_go (m : CatModel) : List Dict → Except String CatModel
  | [] => Except.ok m
  | r :: rs =>
      match alFind r "category" with
      | none => Except.error "category"
      | some cv =>
          if cv.isTruthy then
            match alFind r "description" with
            | none => Except.error "description"
            | some desc => group_go (modelBump m desc cv) rs
          else group_go m rs

/-- `group_transactions_by_category` (source lines 33-45). -/
def group_transactions_by_category (transactions : List Dict) :
    Except String CatModel :=
  group_go [] transactions

/-- `Counter.most_common()[0]` for a non-empty counter: CPython sorts the
items by count descending with a stable sort, so the first item with the
maximal count (in insertion order) comes out first. -/
def mcBest : PyCounter → Option (Val × Nat)
  | [] => none
  | p :: rest =>
      match mcBest rest with
      | none => some p
      | some q => if q.2 > p.2 then some q else some p

/-- The body of the `for transaction in transactions` loop of
`apply_transaction_categories` (source lines 113-116).  A row whose
`category` is truthy is left alone; otherwise `transaction['description']`
is subscripted directly (`KeyError` when absent) and `category` is assigned
the top of `most_common()` when the model has a truthy (non-empty) counter
for the description, else `None`. -/
def apply_one (category_data : CatModel) (r : Dict) : Except String Dict :=
  if (dictGet r "category").isTruthy then Except.ok r
  else
    match alFind r "description" with
    | none => Except.error "description"
    | some desc =>
        let newCat :=
          match alFind category_data desc with
          | some c =>
              if c.isEmpty then Val.null
              else ((mcBest c).map (fun p => p.1)).getD Val.null
          | none => Val.null
        Except.ok (alInsert r "category" newCat)

/-- `apply_transaction_categories` (source lines 112-118). -/
def apply_transaction_categories (transactions : List Dict)
    (category_data : CatModel) : Except String (List Dict) :=
  match transactions with
  | [] => Except.ok []
  | r :: rs =>
      match apply_one category_data r with
      | Except.error e => Except.error e
      | Except.ok r2 =>
          match apply_transaction_categories rs category_data with
          | Except.error e => Except.error e
          | Except.ok rs2 => Except.ok (r2 :: rs2)

/-- One output row of `csv.DictWriter.writerows`: `extrasaction='raise'`
raises `ValueError` when the row holds a key outside `fieldnames` (modelled
as `none`); a missing key is written as the rest value `''`. -/
def write_row (fieldnames : List String) (r : Dict) : Option (List Val) :=
  if r.any (fun p => !(fieldnames.contains p.1)) then none
  else some (fieldnames.map (fun f => (alFind r f).getD (Val.str "")))

/-- `writer.writerows`: writes rows until one raises, returning what was
written and whether the loop completed. -/
def write_rows_go (fieldnames : List String) (written : List (List Val)) :
    List Dict → List (List Val) × Bool
  | [] => (written, true)
  | r :: rs =>
      match write_row fieldnames r with
      | none => (written, false)
      | some line => write_rows_go fieldnames (written ++ [line]) rs

/-- `save_results_to_csv` (source lines 121-126).  Result: the rows written
to the file (header first) and whether the call completed without an
exception.  `transactions[0]` on an empty list raises `IndexError`;
`assert len(transactions[0].keys()) == len(CONFIG["FIELDNAMES"])` raises
`AssertionError`; both abort before the file is written. -/
def save_results_to_csv (transactions : List Dict) (fieldnames : List String) :
    List (List Val) × Bool :=
  match transactions with
  | [] => ([], false)
  | t0 :: _ =>
      if dictKeyCount t0 = fieldnames.length then
        write_rows_go fieldnames [fieldnames.map Val.str] transactions
      else ([], false)

/-- `x['date']` of a ledger row as a comparable date; `none` models the
`KeyError` / `TypeError` a non-date cell would raise under `max` or
`strftime`. -/
def rowDate (r : Dict) : Option (Nat × Nat × Nat) :=
  match alFind r "date" with
  | some (Val.date y m d) => some (y, m, d)
  | _ => none

/-- Chronological (lexicographic) strict order on dates, as `datetime`
comparison. -/
def dateLtB : Nat × Nat × Nat → Nat × Nat × Nat → Bool
  | (y1, m1, d1), (y2, m2, d2) =>
      y1 < y2 || (y1 = y2 && (m1 < m2 || (m1 = m2 && d1 < d2)))

/-- Zero-padded two-digit field of `strftime`. -/
def pad2 (n : Nat) : String :=
  if n < 10 then "0" ++ toString n else toString n

/-- Zero-padded four-digit `%Y` field of `strftime`. -/
def pad4 (n : Nat) : String :=
  if n < 10 then "000" ++ toString n
  else if n < 100 then "00" ++ toString n
  else if n < 1000 then "0" ++ toString n
  else toString n

/-- `strftime("%Y-%m-%d")`. -/
def fmtDate : Nat × Nat × Nat → String
  | (y, m, d) => pad4 y ++ "-" ++ pad2 m ++ "-" ++ pad2 d

/-- Source line 133:
`max(existing_transactions, key=lambda x: x['date'])['date'].strftime("%Y-%m-%d")`.
Python `max` keeps the first maximum and replaces it only on a strictly
greater key; the empty list raises `ValueError`, modelled as `none`. -/
def compute_start_date (existing_transactions : List Dict) : Option String :=
  match existing_transactions.mapM rowDate with
  | none => none
  | some [] => none
  | some (d :: ds) =>
      some (fmtDate (ds.foldl (fun best x => if dateLtB best x then x else best) d))

/-! ### Association-list lemmas -/

theorem alFind_eq_none_of_not_has {κ α : Type} [DecidableEq κ] {m : List (κ × α)} {k : κ}
    (h : alHasKey m k = false) : alFind m k = none := by
  induction m with
  | nil => rfl
  | cons p rest ih =>
      simp only [alHasKey, Bool.or_eq_false_iff, decide_eq_false_iff_not] at h
      simp only [alFind, if_neg h.1]
      exact ih h.2

theorem alFind_append {κ α : Type} [DecidableEq κ] (m l : List (κ × α)) (k : κ) :
    alFind (m ++ l) k = match alFind m k with
      | some v => some v
      | none => alFind l k := by
  induction m with
  | nil => rfl
  | cons p rest ih =>
      by_cases hp : p.1 = k
      · simp [alFind, hp]
      · simp [alFind, hp, ih]

theorem alFind_alSet_self {κ α : Type} [DecidableEq κ] {m : List (κ × α)} {k : κ} {v : α}
    (h : alHasKey m k = true) : alFind (alSet m k v) k = some v := by
  induction m with
  | nil => simp [alHasKey] at h
  | cons p rest ih =>
      by_cases hp : p.1 = k
      · simp [alSet, hp, alFind]
      · simp only [alHasKey, Bool.or_eq_true, decide_eq_true_eq] at h
        rcases h with h | h
        · exact absurd h hp
        · simp only [alSet, if_neg hp, alFind, if_neg hp]
          exact ih h

theorem alFind_alSet_ne {κ α : Type} [DecidableEq κ] {m : List (κ × α)} {k k' : κ} {v : α}
    (h : k' ≠ k) : alFind (alSet m k v) k' = alFind m k' := by
  induction m with
  | nil => rfl
  | cons p rest ih =>
      by_cases hp : p.1 = k
      · simp only [alSet, if_pos hp, alFind]
        rw [if_neg fun hh => h hh.symm, if_neg fun hh => h (hp.symm.trans hh).symm]
      · simp only [alSet, if_neg hp, alFind, ih]

theorem alFind_alInsert_self {κ α : Type} [DecidableEq κ] (m : List (κ × α)) (k : κ) (v : α) :
    alFind (alInsert m k v) k = some v := by
  unfold alInsert
  by_cases h : alHasKey m k
  · rw [if_pos h]; exact alFind_alSet_self h
  · rw [if_neg h, alFind_append, alFind_eq_none_of_not_has (Bool.of_not_eq_true h)]
    simp [alFind]

theorem alFind_alInsert_ne {κ α : Type} [DecidableEq κ] {m : List (κ × α)} {k k' : κ} {v : α}
    (h : k' ≠ k) : alFind (alInsert m k v) k' = alFind m k' := by
  unfold alInsert
  by_cases hh : alHasKey m k
  · rw [if_pos hh]; exact alFind_alSet_ne h
  · rw [if_neg hh, alFind_append]
    cases hm : alFind m k' with
    | some v => rfl
    | none =>
        show alFind [(k, v)] k' = none
        simp only [alFind]
        rw [if_neg fun hc : k = k' => h hc.symm]

theorem alFind_mem {κ α : Type} [DecidableEq κ] {m : List (κ × α)} {k : κ} {v : α}
    (h : alFind m k = some v) : (k, v) ∈ m := by
  induction m with
  | nil => simp [alFind] at h
  | cons p rest ih =>
      by_cases hp : p.1 = k
      · simp only [alFind, if_pos hp, Option.some.injEq] at h
        cases p with
        | mk a b =>
            cases hp
            cases h
            exact List.mem_cons_self _ _
      · simp only [alFind, if_neg hp] at h
        exact List.mem_cons_of_mem _ (ih h)

theorem mem_alSet {κ α : Type} [DecidableEq κ] {m : List (κ × α)} {k : κ} {v : α} {p : κ × α}
    (h : p ∈ alSet m k v) : p = (k, v) ∨ p ∈ m := by
  induction m with
  | nil => simp [alSet] at h
  | cons q rest ih =>
      by_cases hq : q.1 = k
      · rw [alSet, if_pos hq] at h
        rcases List.mem_cons.mp h with h | h
        · exact Or.inl h
        · exact Or.inr (List.mem_cons_of_mem _ h)
      · rw [alSet, if_neg hq] at h
        rcases List.mem_cons.mp h with h | h
        · exact Or.inr (List.mem_cons.mpr (Or.inl h))
        · rcases ih h with h | h
          · exact Or.inl h
          · exact Or.inr (List.mem_cons_of_mem _ h)

theorem mem_alInsert {κ α : Type} [DecidableEq κ] {m : List (κ × α)} {k : κ} {v : α} {p : κ × α}
    (h : p ∈ alInsert m k v) : p = (k, v) ∨ p ∈ m := by
  unfold alInsert at h
  by_cases hh : alHasKey m k
  · rw [if_pos hh] at h; exact mem_alSet h
  · rw [if_neg hh] at h
    rcases List.mem_append.mp h with h | h
    · exact Or.inr h
    · exact Or.inl (List.mem_singleton.mp h)

theorem dictGet_alInsert_self (d : Dict) (k : String) (v : Val) :
    dictGet (alInsert d k v) k = v := by
  rw [dictGet, alFind_alInsert_self]; rfl

theorem dictGet_alInsert_ne {d : Dict} {k k' : String} {v : Val} (h : k' ≠ k) :
    dictGet (alInsert d k v) k' = dictGet d k' := by
  rw [dictGet, alFind_alInsert_ne h, dictGet]

/-! ### Row construction lemmas -/

theorem buildRowRest_tid (base : Dict) (t : PlaidTransaction) :
    dictGet (buildRowRest base t) "transaction_id" = t.transaction_id.getD Val.null := by
  unfold buildRowRest
  exact dictGet_alInsert_self _ _ _

theorem buildRowRest_inst (base : Dict) (t : PlaidTransaction) :
    dictGet (buildRowRest base t) "institution_type" = dictGet base "institution_type" := by
  unfold buildRowRest
  iterate 12 rw [dictGet_alInsert_ne (by decide)]

theorem buildRowRest_acct (base : Dict) (t : PlaidTransaction) :
    dictGet (buildRowRest base t) "account_type" = dictGet base "account_type" := by
  unfold buildRowRest
  iterate 12 rw [dictGet_alInsert_ne (by decide)]

theorem accountEntry_inst_eq_acct (bm : List (Val × Val)) (a : PlaidAccount) :
    dictGet (dictUpdateAll [] (accountEntry bm a)) "institution_type" =
      dictGet (dictUpdateAll [] (accountEntry bm a)) "account_type" := rfl

theorem build_go_values (bm : List (Val × Val)) (accounts : List PlaidAccount) :
    ∀ acc : VMap, (∀ p, p ∈ acc → ∃ a, p.2 = accountEntry bm a) →
      ∀ aid e, alFind (build_account_details_go bm acc accounts) aid = some e →
        ∃ a, e = accountEntry bm a := by
  induction accounts with
  | nil =>
      intro acc hacc aid e h
      exact hacc _ (alFind_mem h)
  | cons a rest ih =>
      intro acc hacc aid e h
      refine ih _ ?_ aid e h
      intro p hp
      rcases mem_alInsert hp with hp | hp
      · exact ⟨a, by rw [hp]⟩
      · exact hacc _ hp

theorem build_values {bm : List (Val × Val)} {accounts : List PlaidAccount} {aid : Val}
    {e : Dict} (h : alFind (build_account_details bm accounts) aid = some e) :
    ∃ a, e = accountEntry bm a := by
  exact build_go_values bm accounts [] (by intro p hp; cases hp) aid e h

/-! ### `merge_transactions` loop lemmas -/

/-- The row appended for a fetched transaction, `none` when it is skipped
or the loop would raise. -/
def acceptedRow (ids : List Val) (account_data : VMap) (t : PlaidTransaction) :
    Option Dict :=
  match merge_step ids account_data t with
  | Except.ok (some d) => some d
  | _ => none

theorem acceptedRow_eq_some {ids : List Val} {A : VMap} {t : PlaidTransaction} {d : Dict} :
    acceptedRow ids A t = some d ↔ merge_step ids A t = Except.ok (some d) := by
  unfold acceptedRow
  cases h : merge_step ids A t with
  | error e => simp
  | ok o => cases o <;> simp

theorem merge_step_some {ids : List Val} {A : VMap} {t : PlaidTransaction} {d : Dict}
    (h : merge_step ids A t = Except.ok (some d)) :
    t.transaction_id.getD Val.null ∉ ids ∧
      ∃ entry, alFind A (t.account_id.getD Val.null) = some entry ∧
        dictGet (dictUpdateAll [] entry) "bank_account_number" ≠ Val.str "7550" ∧
        d = buildRowRest (dictUpdateAll [] entry) t := by
  unfold merge_step at h
  by_cases hid : t.transaction_id.getD Val.null ∈ ids
  · rw [if_pos hid] at h; simp at h
  · rw [if_neg hid] at h
    cases hf : alFind A (t.account_id.getD Val.null) with
    | none => simp only [hf] at h; cases h
    | some entry =>
        simp only [hf] at h
        by_cases hm : dictGet (dictUpdateAll [] entry) "bank_account_number" = Val.str "7550"
        · rw [if_pos hm] at h; simp at h
        · rw [if_neg hm] at h
          simp only [Except.ok.injEq, Option.some.injEq] at h
          exact ⟨hid, entry, rfl, hm, h.symm⟩

theorem merge_step_none {ids : List Val} {A : VMap} {t : PlaidTransaction}
    (h : merge_step ids A t = Except.ok none) :
    t.transaction_id.getD Val.null ∈ ids ∨
      ∃ entry, alFind A (t.account_id.getD Val.null) = some entry ∧
        dictGet (dictUpdateAll [] entry) "bank_account_number" = Val.str "7550" := by
  unfold merge_step at h
  by_cases hid : t.transaction_id.getD Val.null ∈ ids
  · exact Or.inl hid
  · rw [if_neg hid] at h
    cases hf : alFind A (t.account_id.getD Val.null) with
    | none => simp only [hf] at h; cases h
    | some entry =>
        simp only [hf] at h
        by_cases hm : dictGet (dictUpdateAll [] entry) "bank_account_number" = Val.str "7550"
        · exact Or.inr ⟨entry, rfl, hm⟩
        · rw [if_neg hm] at h; simp at h

theorem merge_new_ok_eq {ids : List Val} {A : VMap} {F : List PlaidTransaction}
    {R : List Dict} (h : merge_new ids A F = Except.ok R) :
    R = F.filterMap (acceptedRow ids A) := by
  induction F generalizing R with
  | nil =>
      simp only [merge_new, Except.ok.injEq] at h
      simp [← h]
  | cons t ts ih =>
      simp only [merge_new] at h
      cases hs : merge_step ids A t with
      | error e => rw [hs] at h; cases h
      | ok o =>
          cases o with
          | none =>
              rw [hs] at h
              rw [List.filterMap_cons]
              have ha : acceptedRow ids A t = none := by unfold acceptedRow; rw [hs]
              rw [ha]
              exact ih h
          | some d =>
              rw [hs] at h
              cases hr : merge_new ids A ts with
              | error e => rw [hr] at h; cases h
              | ok rest =>
                  rw [hr] at h
                  simp only [Except.ok.injEq] at h
                  rw [List.filterMap_cons]
                  have ha : acceptedRow ids A t = some d := by unfold acceptedRow; rw [hs]
                  rw [ha, ← h, ih hr]

theorem merge_new_ok_steps {ids : List Val} {A : VMap} {F : List PlaidTransaction}
    {R : List Dict} (h : merge_new ids A F = Except.ok R) :
    ∀ t, t ∈ F → ∃ o, merge_step ids A t = Except.ok o := by
  induction F generalizing R with
  | nil => intro t ht; cases ht
  | cons u ts ih =>
      intro t ht
      simp only [merge_new] at h
      cases hs : merge_step ids A u with
      | error e => rw [hs] at h; cases h
      | ok o =>
          rcases List.mem_cons.mp ht with ht | ht
          · exact ⟨o, ht ▸ hs⟩
          · cases o with
            | none => rw [hs] at h; exact ih h t ht
            | some d =>
                rw [hs] at h
                cases hr : merge_new ids A ts with
                | error e => rw [hr] at h; cases h
                | ok rest => exact ih hr t ht

theorem merge_new_all_skip {ids : List Val} {A : VMap} {F : List PlaidTransaction}
    (h : ∀ t, t ∈ F → merge_step ids A t = Except.ok none) :
    merge_new ids A F = Except.ok [] := by
  induction F with
  | nil => rfl
  | cons t ts ih =>
      simp only [merge_new]
      rw [h t (List.mem_cons_self _ _)]
      exact ih fun u hu => h u (List.mem_cons_of_mem _ hu)

theorem merge_transactions_ok {L : List Dict} {F : List PlaidTransaction} {A : VMap}
    {M : List Dict} (h : merge_transactions L F A = Except.ok M) :
    ∃ R, merge_new (ledgerIds L) A F = Except.ok R ∧ M = L ++ R := by
  unfold merge_transactions at h
  cases hm : merge_new (ledgerIds L) A F with
  | error e => rw [hm] at h; cases h
  | ok R =>
      rw [hm] at h
      simp only [Except.ok.injEq] at h
      exact ⟨R, rfl, h.symm⟩

theorem appended_row_tid_not_in_ledger {ids : List Val} {A : VMap}
    {F : List PlaidTransaction} {d : Dict} (hd : d ∈ F.filterMap (acceptedRow ids A)) :
    dictGet d "transaction_id" ∉ ids := by
  obtain ⟨t, _, hacc⟩ := List.mem_filterMap.mp hd
  obtain ⟨hid, entry, _, _, hd'⟩ := merge_step_some (acceptedRow_eq_some.mp hacc)
  rw [hd', buildRowRest_tid]
  exact hid

/-- Claim C2: the merged list begins with every existing ledger row, unchanged
and in original relative order, followed by the accepted new rows in the order
received from the fetch; the ledger rows are not modified. -/
theorem merge_keeps_ledger_and_fetch_order (existing_transactions : List Dict)
    (new_transactions : List PlaidTransaction) (account_data : VMap) (merged : List Dict)
    (h : merge_transactions existing_transactions new_transactions account_data =
      Except.ok merged) :
    merged.take existing_transactions.length = existing_transactions ∧
    merged.drop existing_transactions.length =
      new_transactions.filterMap (acceptedRow (ledgerIds existing_transactions) account_data) := by
  obtain ⟨R, hR, hM⟩ := merge_transactions_ok h
  subst hM
  refine ⟨List.take_left _ _, ?_⟩
  rw [List.drop_left]
  exact merge_new_ok_eq hR

/-- Claim C1: a fetched transaction whose id is already in the ledger is
skipped, so the merged output holds exactly the ledger rows carrying that id;
and a second run of the merge on the merged output appends nothing. -/
theorem merge_dedup_and_idempotent (existing_transactions : List Dict)
    (new_transactions : List PlaidTransaction) (account_data : VMap) (merged : List Dict)
    (h : merge_transactions existing_transactions new_transactions account_data =
      Except.ok merged) :
    (∀ v, v ∈ ledgerIds existing_transactions →
      merged.filter (fun r => dictGet r "transaction_id" = v) =
        existing_transactions.filter (fun r => dictGet r "transaction_id" = v)) ∧
    merge_transactions merged new_transactions account_data = Except.ok merged := by
  obtain ⟨R, hR, hM⟩ := merge_transactions_ok h
  have hReq := merge_new_ok_eq hR
  constructor
  · intro v hv
    subst hM
    rw [List.filter_append]
    have hnil : R.filter (fun r => dictGet r "transaction_id" = v) = [] := by
      rw [List.filter_eq_nil_iff]
      intro d hd
      simp only [decide_eq_true_eq]
      intro hEq
      rw [hReq] at hd
      exact appended_row_tid_not_in_ledger hd (hEq ▸ hv)
    rw [hnil, List.append_nil]
  · have hids : ledgerIds merged =
        ledgerIds existing_transactions ++ R.map (fun r => dictGet r "transaction_id") := by
      subst hM
      unfold ledgerIds
      rw [List.map_append]
    have hskip : ∀ t, t ∈ new_transactions →
        merge_step (ledgerIds merged) account_data t = Except.ok none := by
      intro t ht
      obtain ⟨o, ho⟩ := merge_new_ok_steps hR t ht
      cases o with
      | none =>
          rcases merge_step_none ho with hin | ⟨entry, hfind, hmask⟩
          · unfold merge_step
            rw [if_pos (by rw [hids]; exact List.mem_append_left _ hin)]
          · unfold merge_step
            by_cases hin2 : t.transaction_id.getD Val.null ∈ ledgerIds merged
            · rw [if_pos hin2]
            · rw [if_neg hin2]
              simp only [hfind]
              rw [if_pos hmask]
      | some d =>
          have hdR : d ∈ R := by
            rw [hReq]
            exact List.mem_filterMap.mpr ⟨t, ht, acceptedRow_eq_some.mpr ho⟩
          have hmem : t.transaction_id.getD Val.null ∈ ledgerIds merged := by
            obtain ⟨hid, entry, hfind, hmask, hd'⟩ := merge_step_some ho
            rw [hids]
            refine List.mem_append_right _ (List.mem_map.mpr ⟨d, hdR, ?_⟩)
            rw [hd', buildRowRest_tid]
          unfold merge_step
          rw [if_pos hmem]
    have hnil := merge_new_all_skip hskip
    unfold merge_transactions
    simp only [hnil]
    rw [List.append_nil]

theorem filterMap_tid_sublist (ids : List Val) (A : VMap) (F : List PlaidTransaction) :
    ((F.filterMap (acceptedRow ids A)).map (fun r => dictGet r "transaction_id")).Sublist
      (F.map (fun t => t.transaction_id.getD Val.null)) := by
  induction F with
  | nil => simp
  | cons t ts ih =>
      rw [List.filterMap_cons]
      cases ha : acceptedRow ids A t with
      | none =>
          rw [List.map_cons]
          exact ih.cons _
      | some d =>
          rw [List.map_cons, List.map_cons]
          have htid : dictGet d "transaction_id" = t.transaction_id.getD Val.null := by
            obtain ⟨_, entry, _, _, hd⟩ := merge_step_some (acceptedRow_eq_some.mp ha)
            rw [hd, buildRowRest_tid]
          rw [htid]
          exact ih.cons₂ _

/-- Claim C3 (amended): the ids of newly-added rows are disjoint from all
ledger ids; and when the fetched batch itself carries pairwise-distinct ids,
the newly-added rows' ids are pairwise unique.  (The code does not
de-duplicate inside one fetched batch: see the counterexample.) -/
theorem merge_new_ids_disjoint_and_unique (existing_transactions : List Dict)
    (new_transactions : List PlaidTransaction) (account_data : VMap) (merged : List Dict)
    (h : merge_transactions existing_transactions new_transactions account_data =
      Except.ok merged) :
    (∀ r, r ∈ merged.drop existing_transactions.length →
      dictGet r "transaction_id" ∉ ledgerIds existing_transactions) ∧
    ((new_transactions.map (fun t => t.transaction_id.getD Val.null)).Nodup →
      ((merged.drop existing_transactions.length).map
        (fun r => dictGet r "transaction_id")).Nodup) := by
  obtain ⟨R, hR, hM⟩ := merge_transactions_ok h
  have hdrop : merged.drop existing_transactions.length = R := by
    subst hM
    exact List.drop_left _ _
  have hReq := merge_new_ok_eq hR
  constructor
  · intro r hr
    rw [hdrop, hReq] at hr
    exact appended_row_tid_not_in_ledger hr
  · intro hnd
    rw [hdrop, hReq]
    exact hnd.sublist (filterMap_tid_sublist _ _ _)

/-- Claim C8 (amended): a fetched transaction whose account id is absent from
the account map (and whose id is not already in the ledger) makes
`merge_transactions` fail with the `KeyError` carrying that account id, so no
merged list — and in particular no partially-populated row — is produced. -/
theorem merge_unresolved_account_errors (existing_transactions : List Dict)
    (account_data : VMap) (t : PlaidTransaction) (ts : List PlaidTransaction)
    (h1 : t.transaction_id.getD Val.null ∉ ledgerIds existing_transactions)
    (h2 : alFind account_data (t.account_id.getD Val.null) = none) :
    merge_transactions existing_transactions (t :: ts) account_data =
      Except.error (t.account_id.getD Val.null) := by
  have hs : merge_step (ledgerIds existing_transactions) account_data t =
      Except.error (t.account_id.getD Val.null) := by
    unfold merge_step
    rw [if_neg h1]
    simp only [h2]
  unfold merge_transactions
  simp only [merge_new, hs]

/-- Claim C10: every newly-added row of a merge performed with the output of
`build_account_details` carries equal `institution_type` and `account_type`
fields, because both are copied from the provider account's single `type`. -/
theorem merge_institution_type_eq_account_type (bank_name_mapping : List (Val × Val))
    (accounts : List PlaidAccount) (existing_transactions : List Dict)
    (new_transactions : List PlaidTransaction) (merged : List Dict)
    (h : merge_transactions existing_transactions new_transactions
      (build_account_details bank_name_mapping accounts) = Except.ok merged)
    (r : Dict) (hr : r ∈ merged.drop existing_transactions.length) :
    dictGet r "institution_type" = dictGet r "account_type" := by
  obtain ⟨R, hR, hM⟩ := merge_transactions_ok h
  have hdrop : merged.drop existing_transactions.length = R := by
    subst hM
    exact List.drop_left _ _
  rw [hdrop, merge_new_ok_eq hR] at hr
  obtain ⟨t, _, hacc⟩ := List.mem_filterMap.mp hr
  obtain ⟨_, entry, hfind, _, hd⟩ := merge_step_some (acceptedRow_eq_some.mp hacc)
  obtain ⟨a, hea⟩ := build_values hfind
  subst hea
  rw [hd, buildRowRest_inst, buildRowRest_acct]
  exact accountEntry_inst_eq_acct bank_name_mapping a

/-! ### Category inference lemmas -/

/-- The pure per-row effect of the `apply_transaction_categories` loop body on
a row that does not make it raise. -/
def infer_cat (category_data : CatModel) (r : Dict) : Dict :=
  if (dictGet r "category").isTruthy then r
  else
    match alFind r "description" with
    | none => r
    | some desc =>
        alInsert r "category"
          (match alFind category_data desc with
           | some c =>
               if c.isEmpty then Val.null
               else ((mcBest c).map (fun p => p.1)).getD Val.null
           | none => Val.null)

theorem apply_one_ok_eq {category_data : CatModel} {r r2 : Dict}
    (h : apply_one category_data r = Except.ok r2) : r2 = infer_cat category_data r := by
  unfold apply_one at h
  unfold infer_cat
  by_cases hc : (dictGet r "category").isTruthy
  · rw [if_pos hc] at h
    rw [if_pos hc]
    simp only [Except.ok.injEq] at h
    exact h.symm
  · rw [if_neg hc] at h
    rw [if_neg hc]
    cases hd : alFind r "description" with
    | none => rw [hd] at h; cases h
    | some desc =>
        simp only [hd] at h
        simp only [Except.ok.injEq] at h
        exact h.symm

theorem apply_ok_map {transactions rows2 : List Dict} {category_data : CatModel}
    (h : apply_transaction_categories transactions category_data = Except.ok rows2) :
    rows2 = transactions.map (infer_cat category_data) := by
  induction transactions generalizing rows2 with
  | nil =>
      simp only [apply_transaction_categories, Except.ok.injEq] at h
      simp [← h]
  | cons r rs ih =>
      simp only [apply_transaction_categories] at h
      cases ho : apply_one category_data r with
      | error e => rw [ho] at h; cases h
      | ok r2 =>
          rw [ho] at h
          cases hr : apply_transaction_categories rs category_data with
          | error e => rw [hr] at h; cases h
          | ok rs2 =>
              rw [hr] at h
              simp only [Except.ok.injEq] at h
              rw [← h, List.map_cons, ← apply_one_ok_eq ho, ih hr]

theorem apply_one_isOk {category_data : CatModel} {r : Dict}
    (hr : (dictGet r "category").isTruthy = false → (alFind r "description").isSome = true) :
    apply_one category_data r = Except.ok (infer_cat category_data r) := by
  unfold apply_one infer_cat
  by_cases hc : (dictGet r "category").isTruthy
  · rw [if_pos hc, if_pos hc]
  · rw [if_neg hc, if_neg hc]
    have hcf : (dictGet r "category").isTruthy = false := by
      revert hc
      cases (dictGet r "category").isTruthy <;> simp
    cases hd : alFind r "description" with
    | none =>
        have := hr hcf
        rw [hd] at this
        cases this
    | some desc => simp only [hd]

theorem apply_exists {category_data : CatModel} {transactions : List Dict}
    (hall : ∀ r, r ∈ transactions → (dictGet r "category").isTruthy = false →
      (alFind r "description").isSome = true) :
    apply_transaction_categories transactions category_data =
      Except.ok (transactions.map (infer_cat category_data)) := by
  induction transactions with
  | nil => rfl
  | cons r rs ih =>
      simp only [apply_transaction_categories]
      rw [apply_one_isOk (hall r (List.mem_cons_self _ _))]
      rw [ih fun u hu => hall u (List.mem_cons_of_mem _ hu)]
      rfl

theorem mcBest_eq_none {c : PyCounter} (h : mcBest c = none) : c = [] := by
  cases c with
  | nil => rfl
  | cons q qs =>
      exfalso
      simp only [mcBest] at h
      cases hu : mcBest qs with
      | none => simp only [hu] at h; cases h
      | some u =>
          simp only [hu] at h
          by_cases hgt : u.2 > q.2
          · rw [if_pos hgt] at h; cases h
          · rw [if_neg hgt] at h; cases h

theorem mcBest_spec : ∀ c : PyCounter, c ≠ [] →
    ∃ p, mcBest c = some p ∧ p ∈ c ∧ ∀ q, q ∈ c → q.2 ≤ p.2 := by
  intro c
  induction c with
  | nil => intro h; exact absurd rfl h
  | cons p rest ih =>
      intro _
      cases hm : mcBest rest with
      | none =>
          have hrest : rest = [] := mcBest_eq_none hm
          subst hrest
          refine ⟨p, rfl, List.mem_cons_self _ _, ?_⟩
          intro q hq
          rcases List.mem_cons.mp hq with hq | hq
          · rw [hq]
          · cases hq
      | some q =>
          have hrne : rest ≠ [] := by
            intro hr
            rw [hr] at hm
            cases hm
          obtain ⟨q2, hq2, hqmem, hqbound⟩ := ih hrne
          rw [hm] at hq2
          injection hq2 with hq2
          subst hq2
          simp only [mcBest, hm]
          by_cases hgt : q.2 > p.2
          · rw [if_pos hgt]
            refine ⟨q, rfl, List.mem_cons_of_mem _ hqmem, ?_⟩
            intro u hu
            rcases List.mem_cons.mp hu with hu | hu
            · rw [hu]; exact Nat.le_of_lt hgt
            · exact hqbound u hu
          · rw [if_neg hgt]
            refine ⟨p, rfl, List.mem_cons_self _ _, ?_⟩
            intro u hu
            rcases List.mem_cons.mp hu with hu | hu
            · rw [hu]
            · exact Nat.le_trans (hqbound u hu) (Nat.le_of_not_lt hgt)

theorem getD_map_of_lt (f : Dict → Dict) :
    ∀ (rows : List Dict) (i : Nat), i < rows.length →
      (rows.map f).getD i [] = f (rows.getD i []) := by
  intro rows
  induction rows with
  | nil => intro i h; cases h
  | cons r rs ih =>
      intro i h
      cases i with
      | zero => rfl
      | succ j => exact ih j (Nat.lt_of_succ_lt_succ h)

/-- Claim C4: a merged row with an empty/null `category` gets the most common
historical category stored in the frequency model for its exact description;
when the model has no entry for the description the `category` is set to null
and no error is raised. -/
theorem apply_categories_fill_missing (transactions : List Dict) (category_data : CatModel)
    (hdesc : ∀ r, r ∈ transactions → (dictGet r "category").isTruthy = false →
      (alFind r "description").isSome = true) :
    ∃ rows2, apply_transaction_categories transactions category_data = Except.ok rows2 ∧
      rows2.length = transactions.length ∧
      ∀ i, i < transactions.length →
        (dictGet (transactions.getD i []) "category").isTruthy = false →
        ∀ desc, alFind (transactions.getD i []) "description" = some desc →
          (alFind category_data desc = none →
            dictGet (rows2.getD i []) "category" = Val.null) ∧
          (∀ c, alFind category_data desc = some c → c ≠ [] →
            ∃ n, (dictGet (rows2.getD i []) "category", n) ∈ c ∧
              ∀ q, q ∈ c → q.2 ≤ n) := by
  refine ⟨transactions.map (infer_cat category_data), apply_exists hdesc,
    by rw [List.length_map], ?_⟩
  intro i hi hcat desc hdesc2
  rw [getD_map_of_lt _ _ _ hi]
  unfold infer_cat
  rw [if_neg (by rw [hcat]; exact Bool.false_ne_true)]
  simp only [hdesc2]
  constructor
  · intro hnone
    simp only [hnone]
    rw [dictGet_alInsert_self]
  · intro c hc hcne
    simp only [hc]
    have hice : c.isEmpty = false := by
      cases c with
      | nil => exact absurd rfl hcne
      | cons q qs => rfl
    rw [if_neg (by rw [hice]; exact Bool.false_ne_true)]
    obtain ⟨p, hp, hpmem, hpbound⟩ := mcBest_spec c hcne
    simp only [hp, Option.map_some', Option.getD_some]
    rw [dictGet_alInsert_self]
    refine ⟨p.2, ?_, hpbound⟩
    rw [Prod.mk.eta]
    exact hpmem

/-- Claim C5: a merged row that already carries a truthy (non-empty)
`category` passes through `apply_transaction_categories` unchanged. -/
theorem apply_categories_keep_existing (transactions rows2 : List Dict)
    (category_data : CatModel)
    (h : apply_transaction_categories transactions category_data = Except.ok rows2)
    (i : Nat) (ht : (dictGet (transactions.getD i []) "category").isTruthy = true) :
    rows2.getD i [] = transactions.getD i [] := by
  have hm := apply_ok_map h
  subst hm
  by_cases hi : i < transactions.length
  · rw [getD_map_of_lt _ _ _ hi]
    unfold infer_cat
    rw [if_pos ht]
  · have hlen : transactions.length ≤ i := Nat.le_of_not_lt hi
    rw [List.getD_eq_default _ _ hlen,
      List.getD_eq_default _ _ (by rw [List.length_map]; exact hlen)]

/-- Claim C9 (amended): `save_results_to_csv` aborts before writing anything
when the merged list is empty (`IndexError` on `transactions[0]`) or when the
FIRST record's field count differs from the configured column count (failed
`assert`).  Later records' field counts are not checked up front. -/
theorem save_guards_empty_and_first_record (transactions : List Dict)
    (fieldnames : List String)
    (h : transactions = [] ∨ dictKeyCount (transactions.getD 0 []) ≠ fieldnames.length) :
    save_results_to_csv transactions fieldnames = ([], false) := by
  cases transactions with
  | nil => rfl
  | cons t0 rest =>
      rcases h with h | h
      · cases h
      · have h0 : ¬ dictKeyCount t0 = fieldnames.length := h
        show (if dictKeyCount t0 = fieldnames.length then
          write_rows_go fieldnames [fieldnames.map Val.str] (t0 :: rest)
          else ([], false)) = ([], false)
        rw [if_neg h0]

/-- Claim C6 (code bug): the driver passes `strftime` of the maximum ledger
date itself as the fetch start date — the promised "+ 1 day" increment is
absent: with maximum ledger date 2024-01-15 the start date is "2024-01-15",
not "2024-01-16". -/
theorem start_date_without_day_increment :
    compute_start_date [[("date", Val.date 2024 1 15)], [("date", Val.date 2024 1 10)]] =
      some "2024-01-15" ∧ ("2024-01-15" : String) ≠ "2024-01-16" := by
  constructor
  · rfl
  · decide

/-- Fetched transaction without a `location` sub-object (for claim C7). -/
def c7NoLoc : PlaidTransaction :=
  ⟨some (Val.str "tx_nl"), some (Val.str "a1"), none, none, none, none, none, none, none⟩

/-- Fetched transaction whose `location` object is present but empty
(for claim C7). -/
def c7EmptyLoc : PlaidTransaction :=
  ⟨some (Val.str "tx_el"), some (Val.str "a1"), none, none, none, none, none,
    some ⟨none, none, none, none, none⟩, none⟩

/-- Account map resolving account `a1` (for claim C7). -/
def c7Acc : VMap := [(Val.str "a1", [("bank_account_number", Val.str "1111")])]

/-- Claim C7 (code bug): merging a transaction with no location sub-object
succeeds, and `city`, `state`, `zip`, `country` become null — but `address`
becomes the empty dict `{}` (source line 99 uses `{}` as the field default),
which is not null; the same holds when the location object is present and
the specific field is missing. -/
theorem merge_location_defaults :
    (merge_transactions [] [c7NoLoc, c7EmptyLoc] c7Acc).map (fun M =>
      ((dictGet (M.getD 0 []) "address", dictGet (M.getD 0 []) "city",
        dictGet (M.getD 0 []) "state", dictGet (M.getD 0 []) "zip",
        dictGet (M.getD 0 []) "country"),
       (dictGet (M.getD 1 []) "address", dictGet (M.getD 1 []) "city"))) =
      Except.ok ((Val.emptyDict, Val.null, Val.null, Val.null, Val.null),
        (Val.emptyDict, Val.null)) ∧
    Val.emptyDict ≠ Val.null := by
  constructor
  · rfl
  · decide

/-! ### Concrete scenarios for witnesses and counterexamples -/

/-- Ledger already holding `tx_123` (spec's dedup scenario). -/
def c1Ledger : List Dict :=
  [[("transaction_id", Val.str "tx_123"), ("category", Val.str "Dining")]]

/-- Fetch returning `tx_123` again (provider retroactive duplicate). -/
def c1Fetch : List PlaidTransaction :=
  [⟨some (Val.str "tx_123"), some (Val.str "a1"), none, none, none, none, none, none, none⟩]

/-- One-row ledger used by the order-preservation scenarios. -/
def c2Ledger : List Dict := [[("transaction_id", Val.str "tx_old")]]

/-- Fetch carrying one genuinely new transaction. -/
def c2Fetch : List PlaidTransaction :=
  [⟨some (Val.str "tx_new"), some (Val.str "a1"), some (Val.date 2024 2 1),
    some (Val.str "SHOP"), some (Val.int 12), some ["Food"], none, none,
    some (Val.bool false)⟩]

/-- Account map resolving account `a1` with mask 1234. -/
def c2Acc : VMap :=
  [(Val.str "a1",
    [("bank_account_number", Val.str "1234"), ("account_name", Val.str "Chase"),
     ("institution_type", Val.str "depository"), ("account_type", Val.str "depository"),
     ("account_subtype", Val.str "checking")])]

/-- The row the merge builds for the `c2Fetch` transaction. -/
def c2Row : Dict :=
  [("bank_account_number", Val.str "1234"), ("account_name", Val.str "Chase"),
   ("institution_type", Val.str "depository"), ("account_type", Val.str "depository"),
   ("account_subtype", Val.str "checking"), ("date", Val.date 2024 2 1),
   ("description", Val.str "SHOP"), ("amount", Val.int 12),
   ("plaid_category", Val.str "Food"), ("transaction_type", Val.null),
   ("address", Val.emptyDict), ("city", Val.null), ("state", Val.null),
   ("zip", Val.null), ("country", Val.null), ("pending", Val.bool false),
   ("transaction_id", Val.str "tx_new")]

/-- Merged output of `c2Ledger` with `c2Fetch` under `c2Acc`. -/
def c2Merged : List Dict := c2Ledger ++ [c2Row]

/-- Fetched batch holding two transactions that share one id (`dup`)
absent from the ledger. -/
def c3DupFetch : List PlaidTransaction :=
  [⟨some (Val.str "dup"), some (Val.str "a1"), none, none, none, none, none, none, none⟩,
   ⟨some (Val.str "dup"), some (Val.str "a1"), none, none, none, none, none, none, none⟩]

/-- Account map for the duplicate-batch scenario. -/
def c3DupAcc : VMap := [(Val.str "a1", [("bank_account_number", Val.str "1234")])]

/-- Fetched transaction referencing an account id missing from the map. -/
def c8t : PlaidTransaction :=
  ⟨some (Val.str "tx_1"), some (Val.str "acct_9"), none, none, none, none, none, none, none⟩

/-- Ledger with three `COFFEE SHOP` rows: Dining, Dining, Groceries. -/
def coffeeLedger : List Dict :=
  [[("description", Val.str "COFFEE SHOP"), ("category", Val.str "Dining")],
   [("description", Val.str "COFFEE SHOP"), ("category", Val.str "Dining")],
   [("description", Val.str "COFFEE SHOP"), ("category", Val.str "Groceries")]]

/-- The frequency model the coffee ledger produces. -/
def coffeeModel : CatModel :=
  [(Val.str "COFFEE SHOP", [(Val.str "Dining", 2), (Val.str "Groceries", 1)])]

/-- Two uncategorized merged rows: a known merchant and a novel one. -/
def coffeeRows : List Dict :=
  [[("description", Val.str "COFFEE SHOP")],
   [("description", Val.str "NEW VENDOR XYZ")]]

/-- A merged row already carrying a non-empty category. -/
def c5Rows : List Dict :=
  [[("description", Val.str "X"), ("category", Val.str "Travel")]]

/-- Static mask-to-name table of the account metadata scenario. -/
def c10BankMap : List (Val × Val) := [(Val.str "1234", Val.str "Chase")]

/-- One provider account with a single `type` value. -/
def c10Accounts : List PlaidAccount :=
  [⟨some (Val.str "a1"), some (Val.str "1234"), some (Val.str "depository"),
    some (Val.str "checking")⟩]

/-- Fetch for the account-metadata scenario. -/
def c10Fetch : List PlaidTransaction :=
  [⟨some (Val.str "tx_n2"), some (Val.str "a1"), some (Val.date 2024 3 5),
    some (Val.str "CAFE"), some (Val.int 7), none, none, none, some (Val.bool true)⟩]

/-- The row the merge builds for the `c10Fetch` transaction. -/
def c10Row : Dict :=
  [("bank_account_number", Val.str "1234"), ("account_name", Val.str "Chase"),
   ("institution_type", Val.str "depository"), ("account_type", Val.str "depository"),
   ("account_subtype", Val.str "checking"), ("date", Val.date 2024 3 5),
   ("description", Val.str "CAFE"), ("amount", Val.int 7),
   ("plaid_category", Val.str ""), ("transaction_type", Val.null),
   ("address", Val.emptyDict), ("city", Val.null), ("state", Val.null),
   ("zip", Val.null), ("country", Val.null), ("pending", Val.bool true),
   ("transaction_id", Val.str "tx_n2")]

/-- Witness for claim C1 at the spec's `tx_123` scenario. -/
theorem merge_dedup_and_idempotent_witness :
    (∀ v, v ∈ ledgerIds c1Ledger →
      c1Ledger.filter (fun r => dictGet r "transaction_id" = v) =
        c1Ledger.filter (fun r => dictGet r "transaction_id" = v)) ∧
    merge_transactions c1Ledger c1Fetch [] = Except.ok c1Ledger :=
  merge_dedup_and_idempotent c1Ledger c1Fetch [] c1Ledger (by rfl)

/-- Witness for claim C2 at a concrete accept-one-row merge. -/
theorem merge_keeps_ledger_and_fetch_order_witness :
    c2Merged.take c2Ledger.length = c2Ledger ∧
    c2Merged.drop c2Ledger.length =
      c2Fetch.filterMap (acceptedRow (ledgerIds c2Ledger) c2Acc) :=
  merge_keeps_ledger_and_fetch_order c2Ledger c2Fetch c2Acc c2Merged (by rfl)

/-- Counterexample for claim C3 as stated: a batch with two transactions
sharing the id `dup`, absent from the (empty) ledger, merges into two rows
carrying the same id — the newly-added ids are not pairwise unique. -/
theorem merge_duplicate_batch_ids_counterexample :
    (merge_transactions [] c3DupFetch c3DupAcc).map
        (fun M => M.map (fun r => dictGet r "transaction_id")) =
      Except.ok [Val.str "dup", Val.str "dup"] ∧
    ¬ ([Val.str "dup", Val.str "dup"] : List Val).Nodup := by
  constructor
  · rfl
  · decide

/-- Witness for claim C3 (amended) at a concrete accept-one-row merge. -/
theorem merge_new_ids_disjoint_and_unique_witness :
    (∀ r, r ∈ c2Merged.drop c2Ledger.length →
      dictGet r "transaction_id" ∉ ledgerIds c2Ledger) ∧
    ((c2Fetch.map (fun t => t.transaction_id.getD Val.null)).Nodup →
      ((c2Merged.drop c2Ledger.length).map
        (fun r => dictGet r "transaction_id")).Nodup) :=
  merge_new_ids_disjoint_and_unique c2Ledger c2Fetch c2Acc c2Merged (by rfl)

/-- Witness for claim C4: the model built from the coffee ledger maps
`COFFEE SHOP` to Dining(2), Groceries(1); applying it categorizes the new
`COFFEE SHOP` row as Dining and leaves the novel merchant null, no error. -/
theorem apply_categories_fill_missing_witness :
    group_transactions_by_category coffeeLedger = Except.ok coffeeModel ∧
    apply_transaction_categories coffeeRows coffeeModel =
      Except.ok [[("description", Val.str "COFFEE SHOP"), ("category", Val.str "Dining")],
        [("description", Val.str "NEW VENDOR XYZ"), ("category", Val.null)]] ∧
    (∃ rows2, apply_transaction_categories coffeeRows coffeeModel = Except.ok rows2 ∧
      rows2.length = coffeeRows.length ∧
      ∀ i, i < coffeeRows.length →
        (dictGet (coffeeRows.getD i []) "category").isTruthy = false →
        ∀ desc, alFind (coffeeRows.getD i []) "description" = some desc →
          (alFind coffeeModel desc = none →
            dictGet (rows2.getD i []) "category" = Val.null) ∧
          (∀ c, alFind coffeeModel desc = some c → c ≠ [] →
            ∃ n, (dictGet (rows2.getD i []) "category", n) ∈ c ∧
              ∀ q, q ∈ c → q.2 ≤ n)) :=
  ⟨by rfl, by rfl, apply_categories_fill_missing coffeeRows coffeeModel (by decide)⟩

/-- Witness for claim C5: a row with category `Travel` is returned unchanged. -/
theorem apply_categories_keep_existing_witness :
    c5Rows.getD 0 [] = c5Rows.getD 0 [] :=
  apply_categories_keep_existing c5Rows c5Rows [] (by rfl) 0 (by decide)

/-- Counterexample for claim C8 as stated: the failure is the `KeyError`
whose payload is only the account id `acct_9`; the transaction id `tx_1`
appears nowhere in the error. -/
theorem merge_unresolved_error_payload_counterexample :
    merge_transactions [] [c8t] [] = Except.error (Val.str "acct_9") ∧
    Val.str "acct_9" ≠ Val.str "tx_1" := by
  constructor
  · rfl
  · decide

/-- Witness for claim C8 (amended). -/
theorem merge_unresolved_account_errors_witness :
    merge_transactions [] [c8t] [] = Except.error (c8t.account_id.getD Val.null) :=
  merge_unresolved_account_errors [] [] c8t [] (by decide) (by rfl)

/-- Counterexample for claim C9 as stated: the second record holds one field
while two columns are expected, yet the writer writes the header and both
rows and completes — it neither aborts nor leaves the output empty. -/
theorem save_results_later_mismatch_counterexample :
    save_results_to_csv [[("a", Val.str "1"), ("b", Val.str "2")], [("a", Val.str "3")]]
        ["a", "b"] =
      ([[Val.str "a", Val.str "b"], [Val.str "1", Val.str "2"],
        [Val.str "3", Val.str ""]], true) ∧
    dictKeyCount [("a", Val.str "3")] ≠ (["a", "b"] : List String).length := by
  constructor
  · rfl
  · decide

/-- Witness for claim C9 (amended): the empty merged list aborts with nothing
written. -/
theorem save_guards_empty_and_first_record_witness :
    save_results_to_csv [] ["a"] = ([], false) :=
  save_guards_empty_and_first_record [] ["a"] (Or.inl rfl)

/-- Witness for claim C10 at a concrete merge of one new transaction. -/
theorem merge_institution_type_eq_account_type_witness :
    dictGet c10Row "institution_type" = dictGet c10Row "account_type" :=
  merge_institution_type_eq_account_type c10BankMap c10Accounts [] c10Fetch
    [c10Row] (by rfl) c10Row (by decide)
